import Mathlib

/-!
Shallow embedding of the redis-rust data engine (src/db.rs and src/commands.rs).

Modelling conventions:
* `std::collections::HashMap` is modelled as an association list with unique
  keys (`alistInsert` replaces, `alistRemove` deletes the key).
* `tokio::time::Instant` / wall-clock milliseconds are modelled as `Nat`
  parameters (`nowMs`) passed explicitly where the source calls `now()`.
* `VecDeque<String>` is a `List String` whose head is the front.
* Fallible Rust code returning `anyhow::Result` becomes `Except String`,
  carrying the exact error message built by the source.
* A `panic!`/`unwrap` on `None` is modelled by an `Option` result, `none`
  standing for the panic.
* `u64`/`u128` become `Nat`; none of the verified properties involve overflow.
-/

def alistGet? {α : Type} (k : String) : List (String × α) → Option α
  | [] => none
  | (k', v) :: rest => if k' = k then some v else alistGet? k rest

def alistInsert {α : Type} (k : String) (v : α) : List (String × α) → List (String × α)
  | [] => [(k, v)]
  | (k', v') :: rest => if k' = k then (k, v) :: rest else (k', v') :: alistInsert k v rest

def alistRemove {α : Type} (k : String) : List (String × α) → List (String × α)
  | [] => []
  | (k', v) :: rest => if k' = k then alistRemove k rest else (k', v) :: alistRemove k rest

/-- Logical response values (src/resp.rs `RespValue`, plus the `NullArray`
variant used by src/commands.rs). -/
inductive RespValue : Type where
  | SimpleString (s : String)
  | Integer (n : Nat)
  | BulkString (s : String)
  | NullBulkString
  | Array (items : List RespValue)
  | NullArray

/-- One stream record (src/db.rs `StreamItem`); the `HashMap` of field/value
pairs is kept as a list, its iteration order is irrelevant to the claims. -/
structure StreamItem : Type where
  id : String
  values : List (String × String)

/-- Typed keyspace value (src/db.rs `DbValue`). -/
inductive DbValue : Type where
  | Atom (s : String)
  | List (l : List String)
  | Stream (items : List StreamItem)

/-- The keyspace store (src/db.rs `Db`); the blocking queue is omitted since
it never touches `values` or `expirations`. -/
structure Db : Type where
  values : List (String × DbValue)
  expirations : List (String × Nat)

/-- Db-operation errors (src/db.rs `DbError`). -/
inductive DbError : Type where
  | KeyNotFound (k : String)
  | KeyIsNotStream (k : String)
  | StreamStartIdNotFound (id : String)
  | StreamEndIdNotFound (id : String)

/-- Lexicographic strict order on character lists, by code point (agrees with
the Rust byte order on the ASCII ids compared here). -/
def charListLt : List Char → List Char → Bool
  | _, [] => false
  | [], _ :: _ => true
  | a :: as, b :: bs =>
    if a.toNat < b.toNat then true
    else if b.toNat < a.toNat then false
    else charListLt as bs

/-- Rust total order on `&str` (lexicographic). -/
def strCompare (a b : String) : Ordering :=
  if charListLt a.data b.data then Ordering.lt
  else if a = b then Ordering.eq else Ordering.gt

/-- Loop of Rust `slice::binary_search_by`: at the start of every iteration
`size = right - left`; `Err left` carries the insertion point. The fuel is
always sufficient because the width halves each step. -/
def binarySearchGo {α : Type} (cmp : α → Ordering) (l : List α) :
    Nat → Nat → Nat → Except Nat Nat
  | 0, left, _ => Except.error left
  | fuel + 1, left, right =>
    if left < right then
      let mid := left + (right - left) / 2
      match l.get? mid with
      | none => Except.error left
      | some x =>
        match cmp x with
        | Ordering.eq => Except.ok mid
        | Ordering.lt => binarySearchGo cmp l fuel (mid + 1) right
        | Ordering.gt => binarySearchGo cmp l fuel left mid
    else Except.error left

/-- Rust `slice::binary_search_by` over a list. -/
def binarySearchBy {α : Type} (cmp : α → Ordering) (l : List α) : Except Nat Nat :=
  binarySearchGo cmp l (l.length + 1) 0 l.length

def Db.get (db : Db) (key : String) : Option DbValue :=
  alistGet? key db.values

def Db.insert (db : Db) (key : String) (value : DbValue) : Db :=
  { db with values := alistInsert key value db.values }

def Db.setExpiration (db : Db) (key : String) (nowMs millis : Nat) : Db :=
  { db with expirations := alistInsert key (nowMs + millis) db.expirations }

def Db.isExpired (db : Db) (key : String) (nowMs : Nat) : Bool :=
  match alistGet? key db.expirations with
  | some expiration => decide (expiration ≤ nowMs)
  | none => false

def Db.expire (db : Db) (key : String) : Db :=
  { values := alistRemove key db.values, expirations := alistRemove key db.expirations }

def Db.rpush (db : Db) (key : String) (vals : List String) : Nat × Db :=
  let db1 := if (alistGet? key db.values).isNone
             then Db.insert db key (DbValue.List []) else db
  match alistGet? key db1.values with
  | some (DbValue.List l) =>
    let l' := l ++ vals
    ((l'.length), Db.insert db1 key (DbValue.List l'))
  | _ => (0, db1)

def Db.lpush (db : Db) (key : String) (vals : List String) : Nat × Db :=
  let db1 := if (alistGet? key db.values).isNone
             then Db.insert db key (DbValue.List []) else db
  match alistGet? key db1.values with
  | some (DbValue.List l) =>
    let l' := vals.foldl (fun acc v => v :: acc) l
    ((l'.length), Db.insert db1 key (DbValue.List l'))
  | _ => (0, db1)

def Db.lpop (db : Db) (key : String) (length : Nat) : List String × Db :=
  match alistGet? key db.values with
  | some (DbValue.List l) =>
    if l.isEmpty then ([], db)
    else (l.take length, Db.insert db key (DbValue.List (l.drop length)))
  | _ => ([], db)

def Db.llen (db : Db) (key : String) : Nat :=
  match alistGet? key db.values with
  | some (DbValue.List l) => l.length
  | _ => 0

def Db.lrange (db : Db) (key : String) (start stop : Int) : DbValue :=
  match alistGet? key db.values with
  | some (DbValue.List l) =>
    let length := l.length
    let start' : Nat := (max (if start < 0 then (length : Int) + start else start) 0).toNat
    let stop' : Nat := (max (if stop < 0 then (length : Int) + stop else stop) 0).toNat
    if start' < length ∧ start' < stop' then
      let stop'' := min stop' (length - 1)
      DbValue.List ((l.drop start').take (stop'' + 1 - start'))
    else DbValue.List []
  | _ => DbValue.List []

def Db.xadd (db : Db) (key id : String) (vals : List (String × String)) : Db :=
  let db1 := if (alistGet? key db.values).isNone
             then Db.insert db key (DbValue.Stream []) else db
  match alistGet? key db1.values with
  | some (DbValue.Stream items) =>
    Db.insert db1 key (DbValue.Stream (items ++ [{ id := id, values := vals }]))
  | _ => db1

def Db.xfirst (db : Db) (key : String) : Option StreamItem :=
  match alistGet? key db.values with
  | some (DbValue.Stream items) => items.head?
  | _ => none

def Db.xlast (db : Db) (key : String) : Option StreamItem :=
  match alistGet? key db.values with
  | some (DbValue.Stream items) => items.getLast?
  | _ => none

def Db.xrange (db : Db) (key start stop : String) : Except DbError (List StreamItem) :=
  match alistGet? key db.values with
  | some (DbValue.Stream items) =>
    match binarySearchBy (fun it => strCompare it.id start) items with
    | Except.error _ => Except.error (DbError.StreamStartIdNotFound start)
    | Except.ok firstIndex =>
      match binarySearchBy (fun it => strCompare it.id stop) items with
      | Except.error _ => Except.error (DbError.StreamEndIdNotFound stop)
      | Except.ok lastIndex =>
        Except.ok ((items.drop firstIndex).take (lastIndex + 1 - firstIndex))
  | some _ => Except.error (DbError.KeyIsNotStream key)
  | none => Except.error (DbError.KeyNotFound key)

def Db.xread (db : Db) (key start : String) : List StreamItem :=
  match alistGet? key db.values with
  | some (DbValue.Stream items) =>
    let firstIndex :=
      match binarySearchBy (fun it => strCompare it.id start) items with
      | Except.ok index => index + 1
      | Except.error index => if index > 0 then index - 1 else 0
    items.drop firstIndex
  | _ => []

/-- Rust `str::split_once` on the first occurrence of the separator. -/
def splitOnceGo (sep : Char) (acc : List Char) :
    List Char → Option (List Char × List Char)
  | [] => none
  | c :: rest =>
    if c = sep then some (acc.reverse, rest) else splitOnceGo sep (c :: acc) rest

def splitOnce (sep : Char) (s : String) : Option (String × String) :=
  match splitOnceGo sep [] s.data with
  | some (a, b) => some (String.mk a, String.mk b)
  | none => none

def digitVal? (c : Char) : Option Nat :=
  if '0' ≤ c ∧ c ≤ '9' then some (c.toNat - '0'.toNat) else none

def digitsToNatGo (acc : Nat) : List Char → Option Nat
  | [] => some acc
  | c :: rest =>
    match digitVal? c with
    | some d => digitsToNatGo (acc * 10 + d) rest
    | none => none

/-- Rust `str::parse` for an unsigned integer: optional leading plus sign,
then one or more ASCII digits (overflow is not modelled). -/
def parseNatRust (s : String) : Option Nat :=
  let cs := match s.data with
    | '+' :: rest => rest
    | cs => cs
  match cs with
  | [] => none
  | _ => digitsToNatGo 0 cs

/-- Resolution and validation core of `derive_new_stream_id`
(src/commands.rs lines 727-767), after the string parts have been parsed:
`none` in `reqTs`/`reqSeq` stands for a `*` part, `last` is the parsed last
record id (`none` for an empty or absent stream). -/
def deriveNewStreamIdCore (reqTs reqSeq : Option Nat) (last : Option (Nat × Nat))
    (nowMs : Nat) : Except String (Nat × Nat) :=
  let lastMsTime := (last.getD (0, 0)).1
  let lastSeqNum := (last.getD (0, 0)).2
  let newTimestamp := match reqTs with
    | none => nowMs
    | some n => n
  let newSequenceNumber := match reqSeq with
    | some n => n
    | none =>
      if last.isSome then
        if newTimestamp = lastMsTime then lastSeqNum + 1 else 0
      else if reqTs.isNone then 0
      else 1
  if newTimestamp = 0 ∧ newSequenceNumber = 0 then
    Except.error "ERR The ID specified in XADD must be greater than 0-0"
  else if (last.isSome ∧ newTimestamp < lastMsTime)
       ∨ (newTimestamp = lastMsTime ∧ newSequenceNumber ≤ lastSeqNum) then
    Except.error "ERR The ID specified in XADD is equal or smaller than the target stream top item"
  else
    Except.ok (newTimestamp, newSequenceNumber)

/-- `derive_new_stream_id` (src/commands.rs lines 704-768).
The ambient `SystemTime::now()` is the explicit `nowMs` parameter. -/
def deriveNewStreamId (requestedIdStr : String) (lastItemId : Option String)
    (nowMs : Nat) : Except String String := do
  let last : Option (Nat × Nat) ←
    match lastItemId with
    | some lastIdStr =>
      match splitOnce '-' lastIdStr with
      | none => Except.error ("Invalid last stream ID format: " ++ lastIdStr)
      | some (msStr, seqStr) =>
        match parseNatRust msStr, parseNatRust seqStr with
        | some m, some s => Except.ok (some (m, s))
        | _, _ => Except.error "invalid digit found in string"
    | none => Except.ok none
  let parts : String × String ←
    if requestedIdStr = "*" then Except.ok ("*", "*")
    else
      match splitOnce '-' requestedIdStr with
      | none => Except.error ("Invalid stream ID format: " ++ requestedIdStr)
      | some p => Except.ok p
  let reqTs : Option Nat ←
    if parts.1 = "*" then Except.ok none
    else
      match parseNatRust parts.1 with
      | some n => Except.ok (some n)
      | none => Except.error "Timestamp is not a valid number"
  let reqSeq : Option Nat ←
    if parts.2 = "*" then Except.ok none
    else
      match parseNatRust parts.2 with
      | some n => Except.ok (some n)
      | none => Except.error "Sequence is not a valid number"
  let (newTimestamp, newSequenceNumber) ← deriveNewStreamIdCore reqTs reqSeq last nowMs
  Except.ok (Nat.repr newTimestamp ++ "-" ++ Nat.repr newSequenceNumber)

/-- `XreadStartId` (src/commands.rs): `$` parses to `last`. -/
inductive XreadStartId : Type where
  | last
  | normal (s : String)

def XreadStartId.toStr : XreadStartId → String → String
  | XreadStartId.last, lastId => lastId
  | XreadStartId.normal s, _ => s

/-- `StreamItem::to_resp` (src/db.rs). -/
def StreamItem.toResp (item : StreamItem) : RespValue :=
  RespValue.Array
    [RespValue.BulkString item.id,
     RespValue.Array (item.values.flatMap
       (fun p => [RespValue.BulkString p.1, RespValue.BulkString p.2]))]

/-- `Command::execute` for `Set` (src/commands.rs lines 105-116). -/
def executeSet (db : Db) (key value : String) (expiryMillis : Option Nat)
    (nowMs : Nat) : RespValue × Db :=
  let db1 := match expiryMillis with
    | some millis => Db.setExpiration db key nowMs millis
    | none => db
  (RespValue.SimpleString "OK", Db.insert db1 key (DbValue.Atom value))

/-- `Command::execute` for `Rpush` (src/commands.rs lines 117-120). -/
def executeRpush (db : Db) (key : String) (vals : List String) : RespValue × Db :=
  let r := Db.rpush db key vals
  (RespValue.Integer r.1, r.2)

/-- `Command::execute` for `Lpush` (src/commands.rs lines 121-124). -/
def executeLpush (db : Db) (key : String) (vals : List String) : RespValue × Db :=
  let r := Db.lpush db key vals
  (RespValue.Integer r.1, r.2)

/-- `Command::execute` for `Lpop` (src/commands.rs lines 125-136). -/
def executeLpop (db : Db) (key : String) (count : Nat) : RespValue × Db :=
  let r := Db.lpop db key count
  match r.1 with
  | [] => (RespValue.NullBulkString, r.2)
  | [x] => (RespValue.BulkString x, r.2)
  | xs => (RespValue.Array (xs.map RespValue.BulkString), r.2)

/-- `Command::execute` for `Get` (src/commands.rs lines 172-191). -/
def executeGet (db : Db) (key : String) (nowMs : Nat) : RespValue × Db :=
  let isExp := Db.isExpired db key nowMs
  let value := Db.get db key
  let db1 := if isExp then Db.expire db key else db
  match value, isExp with
  | some (DbValue.Atom v), false => (RespValue.BulkString v, db1)
  | some (DbValue.List _), false => (RespValue.NullBulkString, db1)
  | some (DbValue.Stream _), false => (RespValue.NullBulkString, db1)
  | _, _ => (RespValue.NullBulkString, db1)

/-- `Command::execute` for `Lrange` (src/commands.rs lines 192-201); the
operation never mutates the store. -/
def executeLrange (db : Db) (key : String) (start stop : Int) : RespValue :=
  match Db.lrange db key start stop with
  | DbValue.List l => RespValue.Array (l.map RespValue.BulkString)
  | _ => RespValue.NullBulkString

/-- `Command::execute` for `Type` (src/commands.rs lines 202-213); the
operation never mutates the store. -/
def executeType (db : Db) (key : String) : RespValue :=
  match Db.get db key with
  | some (DbValue.Atom _) => RespValue.SimpleString "string"
  | some (DbValue.List _) => RespValue.SimpleString "list"
  | some (DbValue.Stream _) => RespValue.SimpleString "stream"
  | none => RespValue.SimpleString "none"

/-- `Command::execute` for `Xadd` (src/commands.rs lines 214-238); the
field/value pairs are kept as a list in place of the source `HashMap`. -/
def executeXadd (db : Db) (key id : String) (fieldValuePairs : List (String × String))
    (nowMs : Nat) : Except String RespValue × Db :=
  let lastItemIdOption := match Db.get db key with
    | some (DbValue.Stream items) => (items.getLast?).map StreamItem.id
    | _ => none
  match deriveNewStreamId id lastItemIdOption nowMs with
  | Except.error e => (Except.error e, db)
  | Except.ok newId =>
    (Except.ok (RespValue.BulkString newId), Db.xadd db key newId fieldValuePairs)

/-- Initial probe of `Command::execute` for `Xread`
(src/commands.rs lines 296-324): for every requested stream the code first
evaluates `db_g.xlast(key).unwrap()`, so a missing or non-stream key panics;
the panic is modelled as `none`. -/
def xreadInitialProbe (db : Db) : List (String × XreadStartId) → Option (List RespValue)
  | [] => some []
  | (key, start) :: rest =>
    match Db.xlast db key with
    | none => none
    | some lastItem =>
      let startId := XreadStartId.toStr start lastItem.id
      let streamItems := Db.xread db key startId
      let respStreamContent := streamItems.map StreamItem.toResp
      match xreadInitialProbe db rest with
      | none => none
      | some others =>
        some (if respStreamContent.isEmpty then others
              else RespValue.Array
                     [RespValue.BulkString key,
                      RespValue.Array respStreamContent] :: others)

theorem alistGet?_insert_self {α : Type} (k : String) (v : α) (l : List (String × α)) :
    alistGet? k (alistInsert k v l) = some v := by
  induction l with
  | nil => simp [alistInsert, alistGet?]
  | cons p rest ih =>
    by_cases h : p.1 = k <;> simp [alistInsert, alistGet?, h, ih]

theorem alistGet?_remove_self {α : Type} (k : String) (l : List (String × α)) :
    alistGet? k (alistRemove k l) = none := by
  induction l with
  | nil => rfl
  | cons p rest ih =>
    by_cases h : p.1 = k <;> simp [alistRemove, alistGet?, h, ih]

theorem foldl_cons_eq_reverse_append (vals acc : List String) :
    vals.foldl (fun a v => v :: a) acc = vals.reverse ++ acc := by
  induction vals generalizing acc with
  | nil => simp
  | cons x xs ih => simp [List.foldl, ih]

/-- C1: the claim asserts that `xrange` returns the contiguous run of records
with ids in the inclusive range, neither bound needing to match an existing
id. On a stream with records `1-1` and `3-0`, `xrange` over `[0-0, 5-0]`
should return both records, but the implementation binary-searches for an
exact id match and fails with `StreamStartIdNotFound` instead. -/
theorem xrange_exact_match_failure :
    Db.xrange (Db.mk [("s", DbValue.Stream [⟨"1-1", []⟩, ⟨"3-0", []⟩])] [])
        "s" "0-0" "5-0"
      = Except.error (DbError.StreamStartIdNotFound "0-0") := rfl

/-- C2 counterexample: at time 10 the key `k` (deadline 5) is expired, yet
the TYPE read path still reports `string` rather than the absent marker
`none`; the claim that every read path observes expiration is false. -/
theorem expired_key_visible_to_type :
    Db.isExpired (Db.mk [("k", DbValue.Atom "v")] [("k", 5)]) "k" 10 = true ∧
    executeType (Db.mk [("k", DbValue.Atom "v")] [("k", 5)]) "k"
      = RespValue.SimpleString "string" :=
  ⟨rfl, rfl⟩

/-- C3 counterexample: XADD with requested id `5-*` on an empty stream
resolves to `5-1`, not to the `5-0` the claim demands. -/
theorem xadd_explicit_ts_auto_seq_counterexample :
    deriveNewStreamId "5-*" none 999 = Except.ok "5-1" ∧
    deriveNewStreamId "5-*" none 999 ≠ Except.ok "5-0" := by
  refine ⟨rfl, ?_⟩
  intro h
  rw [show deriveNewStreamId "5-*" none 999 = Except.ok "5-1" from rfl] at h
  exact absurd (Except.ok.inj h) (by decide)

/-- C5: the claim asserts that `xread` returns exactly the records with id
strictly greater than the start id. On a stream with records `1-1` and `2-1`
and start id `1-5` (no exact match), the implementation starts the slice at
`insertion_point - 1` and returns both records, including `1-1`, whose id is
strictly below the start id. -/
theorem xread_returns_stale_record :
    (Db.xread (Db.mk [("s", DbValue.Stream [⟨"1-1", []⟩, ⟨"2-1", []⟩])] [])
        "s" "1-5").map StreamItem.id = ["1-1", "2-1"] ∧
    strCompare "1-1" "1-5" = Ordering.lt :=
  ⟨rfl, rfl⟩

/-- C6 counterexample: RPUSH and LPUSH on a key holding an Atom do not fail
with a variant-mismatch error; they return the integer reply `0` and leave
the stored value unchanged. -/
theorem push_on_atom_counterexample :
    executeRpush (Db.mk [("k", DbValue.Atom "v")] []) "k" ["a"]
      = (RespValue.Integer 0, Db.mk [("k", DbValue.Atom "v")] []) ∧
    executeLpush (Db.mk [("k", DbValue.Atom "v")] []) "k" ["a"]
      = (RespValue.Integer 0, Db.mk [("k", DbValue.Atom "v")] []) :=
  ⟨rfl, rfl⟩

/-- C7: the claim asserts LRANGE returns the inclusive slice and is empty
exactly when the clamped start exceeds the clamped stop; in particular
`LRANGE k i i` returns the element at index `i`. The implementation guards
the slice with a strict `start < stop` comparison, so `LRANGE k 0 0` on the
list `[a]`, `LRANGE k 0 -1` on `[a]`, and `LRANGE k 1 1` on `[a, b, c]` all
return the empty list instead of one element. -/
theorem lrange_single_index_empty :
    Db.lrange (Db.mk [("k", DbValue.List ["a"])] []) "k" 0 0 = DbValue.List [] ∧
    Db.lrange (Db.mk [("k", DbValue.List ["a"])] []) "k" 0 (-1) = DbValue.List [] ∧
    Db.lrange (Db.mk [("k", DbValue.List ["a", "b", "c"])] []) "k" 1 1 = DbValue.List [] :=
  ⟨rfl, rfl, rfl⟩

/-- C8 counterexample: with an explicitly supplied count of 2 popping a
single element, LPOP answers with a single bulk string rather than with an
array, and with a supplied count on a missing key it answers with a null
bulk rather than with an empty array. -/
theorem lpop_multi_form_counterexample :
    (executeLpop (Db.mk [("k", DbValue.List ["a"])] []) "k" 2).1
      = RespValue.BulkString "a" ∧
    (executeLpop (Db.mk [] []) "k" 3).1 = RespValue.NullBulkString :=
  ⟨rfl, rfl⟩

/-- C9: the claim asserts a SET clears any prior expiration deadline. After
`SET k v1 PX 100` at time 0 and a plain `SET k v2` at time 50, the deadline
100 is still recorded, so a GET at time 200 reports the key absent and
deletes it, instead of returning `v2`. -/
theorem set_leaves_stale_expiration :
    alistGet? "k" ((executeSet (executeSet (Db.mk [] []) "k" "v1" (some 100) 0).2
        "k" "v2" none 50).2).expirations = some 100 ∧
    (executeGet ((executeSet (executeSet (Db.mk [] []) "k" "v1" (some 100) 0).2
        "k" "v2" none 50).2) "k" 200).1 = RespValue.NullBulkString ∧
    Db.get ((executeGet ((executeSet (executeSet (Db.mk [] []) "k" "v1" (some 100) 0).2
        "k" "v2" none 50).2) "k" 200).2) "k" = none :=
  ⟨rfl, rfl, rfl⟩

/-- C10: the initial probe of XREAD evaluates `xlast(key).unwrap()` for every
requested stream before looking at the start id, so an XREAD naming a key
that is absent, or one holding a non-stream value, panics (modelled as
`none`) even though the start id is explicit rather than `$`. -/
theorem xread_probe_panics_on_missing_or_nonstream :
    xreadInitialProbe (Db.mk [] []) [("missing", XreadStartId.normal "1-1")] = none ∧
    xreadInitialProbe (Db.mk [("k", DbValue.Atom "v")] [])
      [("k", XreadStartId.normal "1-1")] = none :=
  ⟨rfl, rfl⟩

/-- C3 (amended): on an empty or absent stream, an XADD id of the form
`<ms>-*` with an explicit timestamp part resolves its sequence number to 1
regardless of the timestamp value; in particular `5-*` yields `5-1` and
`0-*` yields `0-1`. -/
theorem xadd_auto_seq_empty_stream (reqTs nowMs : Nat) :
    deriveNewStreamIdCore (some reqTs) none none nowMs = Except.ok (reqTs, 1) ∧
    deriveNewStreamId "5-*" none 999 = Except.ok "5-1" ∧
    deriveNewStreamId "0-*" none 999 = Except.ok "0-1" := by
  refine ⟨?_, rfl, rfl⟩
  simp [deriveNewStreamIdCore]

/-- C4: for a fully explicit resolved id, XADD fails with exactly the `0-0`
error string when the resolved id is `(0, 0)`; it fails with exactly the
top-item error string when the stream is non-empty and the resolved id is
lexicographically at most the last record id; it succeeds with the resolved
id otherwise (also on an empty stream); and whenever id derivation fails the
store is left unchanged. -/
theorem xadd_id_validation (ms seq lms lseq nowMs : Nat) :
    (ms = 0 ∧ seq = 0 →
      deriveNewStreamIdCore (some ms) (some seq) (some (lms, lseq)) nowMs =
        Except.error "ERR The ID specified in XADD must be greater than 0-0" ∧
      deriveNewStreamIdCore (some ms) (some seq) none nowMs =
        Except.error "ERR The ID specified in XADD must be greater than 0-0") ∧
    (¬(ms = 0 ∧ seq = 0) → (ms < lms ∨ (ms = lms ∧ seq ≤ lseq)) →
      deriveNewStreamIdCore (some ms) (some seq) (some (lms, lseq)) nowMs =
        Except.error "ERR The ID specified in XADD is equal or smaller than the target stream top item") ∧
    (¬(ms = 0 ∧ seq = 0) → ¬(ms < lms ∨ (ms = lms ∧ seq ≤ lseq)) →
      deriveNewStreamIdCore (some ms) (some seq) (some (lms, lseq)) nowMs =
        Except.ok (ms, seq)) ∧
    (¬(ms = 0 ∧ seq = 0) →
      deriveNewStreamIdCore (some ms) (some seq) none nowMs = Except.ok (ms, seq)) ∧
    (∀ db key id fvs e, (executeXadd db key id fvs nowMs).1 = Except.error e →
      (executeXadd db key id fvs nowMs).2 = db) := by
  have hcore : ∀ last : Option (Nat × Nat),
      deriveNewStreamIdCore (some ms) (some seq) last nowMs =
        (if ms = 0 ∧ seq = 0 then
          Except.error "ERR The ID specified in XADD must be greater than 0-0"
         else if (last.isSome ∧ ms < (last.getD (0, 0)).1)
              ∨ (ms = (last.getD (0, 0)).1 ∧ seq ≤ (last.getD (0, 0)).2) then
          Except.error "ERR The ID specified in XADD is equal or smaller than the target stream top item"
         else Except.ok (ms, seq)) := fun _ => rfl
  refine ⟨?_, ?_, ?_, ?_, ?_⟩
  · rintro ⟨h1, h2⟩
    subst h1; subst h2
    exact ⟨by simp [hcore], by simp [hcore]⟩
  · intro hne hle
    rw [hcore (some (lms, lseq))]
    rw [if_neg hne, if_pos]
    simpa using hle
  · intro hne hgt
    rw [hcore (some (lms, lseq))]
    rw [if_neg hne, if_neg]
    simpa using hgt
  · intro hne
    rw [hcore none]
    rw [if_neg hne, if_neg]
    simp only [Option.isSome_none]
    rintro (⟨h, _⟩ | ⟨h, h'⟩)
    · simp at h
    · exact hne ⟨h, Nat.le_zero.mp h'⟩
  · intro db key id fvs e h
    unfold executeXadd at h ⊢
    cases hd : deriveNewStreamId id (match Db.get db key with
      | some (DbValue.Stream items) => (items.getLast?).map StreamItem.id
      | _ => none) nowMs with
    | error e' => simp [hd]
    | ok v => simp [hd] at h

theorem xadd_id_validation_witness :
    deriveNewStreamIdCore (some 0) (some 0) (some (2, 0)) 7 =
      Except.error "ERR The ID specified in XADD must be greater than 0-0" ∧
    deriveNewStreamIdCore (some 1) (some 1) (some (2, 0)) 7 =
      Except.error "ERR The ID specified in XADD is equal or smaller than the target stream top item" ∧
    deriveNewStreamIdCore (some 3) (some 0) (some (2, 0)) 7 = Except.ok (3, 0) ∧
    (executeXadd (Db.mk [] []) "s" "0-0" [] 7).2 = Db.mk [] [] :=
  ⟨((xadd_id_validation 0 0 2 0 7).1 ⟨rfl, rfl⟩).1,
   (xadd_id_validation 1 1 2 0 7).2.1 (by decide) (Or.inl (by decide)),
   (xadd_id_validation 3 0 2 0 7).2.2.1 (by decide) (by decide),
   (xadd_id_validation 0 0 2 0 7).2.2.2.2 (Db.mk [] []) "s" "0-0" []
     "ERR The ID specified in XADD must be greater than 0-0" rfl⟩

/-- C2 (amended): only the GET path observes expiration: a GET on a key
whose deadline has passed answers a null bulk and removes both the value and
the expiration entry, while TYPE, LLEN, LRANGE and LPOP (and the store-level
get they are built on) never consult the expiration table, so their answers
are unchanged under any replacement of it. -/
theorem expiry_checked_only_by_get (db : Db) (key : String) (nowMs : Nat)
    (h : Db.isExpired db key nowMs = true) :
    (executeGet db key nowMs).1 = RespValue.NullBulkString ∧
    Db.get (executeGet db key nowMs).2 key = none ∧
    alistGet? key ((executeGet db key nowMs).2).expirations = none ∧
    (∀ exps, executeType { db with expirations := exps } key = executeType db key) ∧
    (∀ exps, Db.llen { db with expirations := exps } key = Db.llen db key) ∧
    (∀ exps start stop, Db.lrange { db with expirations := exps } key start stop
        = Db.lrange db key start stop) ∧
    (∀ exps count, (Db.lpop { db with expirations := exps } key count).1
        = (Db.lpop db key count).1) := by
  have h1 : executeGet db key nowMs = (RespValue.NullBulkString, Db.expire db key) := by
    unfold executeGet
    rw [h]
    rcases Db.get db key with _ | v
    · rfl
    · cases v <;> rfl
  refine ⟨by rw [h1], ?_, ?_, fun exps => rfl, fun exps => rfl,
    fun exps start stop => rfl, ?_⟩
  · rw [h1]
    simp [Db.get, Db.expire, alistGet?_remove_self]
  · rw [h1]
    simp [Db.expire, alistGet?_remove_self]
  · intro exps count
    simp only [Db.lpop]
    rcases alistGet? key db.values with _ | v
    · rfl
    · rcases v with _ | _ | _
      · rfl
      · dsimp only
        split <;> rfl
      · rfl

theorem expiry_checked_only_by_get_witness :
    Db.isExpired (Db.mk [("w", DbValue.Atom "x")] [("w", 5)]) "w" 10 = true ∧
    (executeGet (Db.mk [("w", DbValue.Atom "x")] [("w", 5)]) "w" 10).1
      = RespValue.NullBulkString :=
  ⟨rfl,
   (expiry_checked_only_by_get (Db.mk [("w", DbValue.Atom "x")] [("w", 5)])
     "w" 10 rfl).1⟩

/-- C6 (amended): on a key holding an Atom or a Stream, RPUSH and LPUSH
leave the store unchanged and return 0 as a plain integer reply rather than
failing with a variant-mismatch error; on a missing key they create a List;
on a List they return the new length (LPUSH prepending the values in
reverse order). -/
theorem rpush_lpush_behavior (db : Db) (key : String) (vals : List String) :
    (Db.get db key = none →
        (Db.rpush db key vals).1 = vals.length ∧
        Db.get (Db.rpush db key vals).2 key = some (DbValue.List vals) ∧
        (Db.lpush db key vals).1 = vals.length ∧
        Db.get (Db.lpush db key vals).2 key = some (DbValue.List vals.reverse)) ∧
    (∀ l, Db.get db key = some (DbValue.List l) →
        (Db.rpush db key vals).1 = l.length + vals.length ∧
        Db.get (Db.rpush db key vals).2 key = some (DbValue.List (l ++ vals)) ∧
        (Db.lpush db key vals).1 = vals.length + l.length ∧
        Db.get (Db.lpush db key vals).2 key
          = some (DbValue.List (vals.reverse ++ l))) ∧
    (∀ s, Db.get db key = some (DbValue.Atom s) →
        Db.rpush db key vals = (0, db) ∧ Db.lpush db key vals = (0, db)) ∧
    (∀ items, Db.get db key = some (DbValue.Stream items) →
        Db.rpush db key vals = (0, db) ∧ Db.lpush db key vals = (0, db)) ∧
    (executeRpush db key vals).1 = RespValue.Integer (Db.rpush db key vals).1 ∧
    (executeLpush db key vals).1 = RespValue.Integer (Db.lpush db key vals).1 := by
  refine ⟨?_, ?_, ?_, ?_, rfl, rfl⟩
  · intro h
    have h' : alistGet? key db.values = none := h
    refine ⟨?_, ?_, ?_, ?_⟩ <;>
      simp [Db.rpush, Db.lpush, Db.get, Db.insert, h', alistGet?_insert_self,
        foldl_cons_eq_reverse_append]
  · intro l hl
    have h' : alistGet? key db.values = some (DbValue.List l) := hl
    refine ⟨?_, ?_, ?_, ?_⟩ <;>
      simp [Db.rpush, Db.lpush, Db.get, Db.insert, h', alistGet?_insert_self,
        foldl_cons_eq_reverse_append, Nat.add_comm]
  · intro s hs
    have h' : alistGet? key db.values = some (DbValue.Atom s) := hs
    constructor <;> simp [Db.rpush, Db.lpush, h']
  · intro items hs
    have h' : alistGet? key db.values = some (DbValue.Stream items) := hs
    constructor <;> simp [Db.rpush, Db.lpush, h']

theorem rpush_lpush_behavior_witness :
    Db.rpush (Db.mk [("q", DbValue.Atom "x")] []) "q" ["a"]
      = (0, Db.mk [("q", DbValue.Atom "x")] []) ∧
    (Db.rpush (Db.mk [] []) "q" ["a", "b"]).1 = 2 ∧
    (Db.lpush (Db.mk [("q", DbValue.List ["x"])] []) "q" ["a", "b"]).1 = 3 ∧
    Db.get (Db.lpush (Db.mk [("q", DbValue.List ["x"])] []) "q" ["a", "b"]).2 "q"
      = some (DbValue.List ["b", "a", "x"]) :=
  ⟨((rpush_lpush_behavior (Db.mk [("q", DbValue.Atom "x")] []) "q" ["a"]).2.2.1
      "x" rfl).1,
   ((rpush_lpush_behavior (Db.mk [] []) "q" ["a", "b"]).1 rfl).1,
   ((rpush_lpush_behavior (Db.mk [("q", DbValue.List ["x"])] []) "q"
      ["a", "b"]).2.1 ["x"] rfl).2.2.1,
   ((rpush_lpush_behavior (Db.mk [("q", DbValue.List ["x"])] []) "q"
      ["a", "b"]).2.1 ["x"] rfl).2.2.2⟩

/-- C8 (amended): the LPOP reply shape depends only on the number of popped
elements, not on whether a count argument was supplied: LPOP pops the first
`count` elements, answers a null bulk when nothing was popped, a single bulk
string when exactly one element was popped, and an array of bulks when two
or more were popped. -/
theorem lpop_shape (db : Db) (key : String) (count : Nat) (l : List String)
    (h : Db.get db key = some (DbValue.List l)) :
    (Db.lpop db key count).1 = l.take count ∧
    (l.take count = [] → (executeLpop db key count).1 = RespValue.NullBulkString) ∧
    (∀ x, l.take count = [x] → (executeLpop db key count).1 = RespValue.BulkString x) ∧
    (2 ≤ (l.take count).length →
      (executeLpop db key count).1
        = RespValue.Array ((l.take count).map RespValue.BulkString)) := by
  have h' : alistGet? key db.values = some (DbValue.List l) := h
  have hpop : (Db.lpop db key count).1 = l.take count := by
    by_cases he : l.isEmpty
    · have hnil : l = [] := List.isEmpty_iff.mp he
      subst hnil
      simp [Db.lpop, h']
    · simp [Db.lpop, h', he]
  refine ⟨hpop, ?_, ?_, ?_⟩
  · intro h0
    simp only [executeLpop, hpop, h0]
  · intro x hx
    simp only [executeLpop, hpop, hx]
  · intro h2
    rcases hl : l.take count with _ | ⟨a, tl⟩
    · rw [hl] at h2; simp at h2
    · rcases tl with _ | ⟨b, tl'⟩
      · rw [hl] at h2; simp at h2
      · simp only [executeLpop, hpop, hl]

theorem lpop_shape_witness :
    (executeLpop (Db.mk [("p", DbValue.List ["a", "b", "c"])] []) "p" 2).1
      = RespValue.Array [RespValue.BulkString "a", RespValue.BulkString "b"] :=
  (lpop_shape (Db.mk [("p", DbValue.List ["a", "b", "c"])] []) "p" 2
    ["a", "b", "c"] rfl).2.2.2 (by decide)
